import Mathlib

/-!
Verification of the MassBalanceMachine geodata pipeline
(`massbalancemachine/geodata/GeoData.py` and
`regions/Switzerland/scripts/geodata.py`).

Shallow embedding conventions:
* a float that may be NaN is `Option ℚ` (`none` = NaN/missing);
* a GeoDataFrame is a `List Row`, one `Row` per record, with the point
  geometry stored as the two rationals `x`, `y` and each column a field
  (a column that a given function never creates or reads is simply
  carried along unchanged);
* pandas boolean comparisons against NaN follow the library semantics:
  `NaN == c` is false and `NaN != c` is true, which the `Option` encoding
  reproduces (`none = some c` is false, `¬ none = some c` is true);
* external array routines (scipy's `gaussian_filter`) are total
  shape-preserving array functions and are taken as parameters.
-/

/-- One record of a point table (GeoDataFrame row).  `x`,`y` is the point
geometry; the remaining fields are the columns used by the embedded
functions: `pred_masked` (prediction), `elev_masked` (elevation),
`dis_masked` (distance to terminus), `classes` (integer class label, as a
possibly-NaN float, exactly as the code stores it), `elev_band` and
`selected_band` (added by the banding / snowline passes). -/
structure Row where
  x : ℚ
  y : ℚ
  pred_masked : Option ℚ := none
  elev_masked : Option ℚ := none
  dis_masked : Option ℚ := none
  classes : Option ℚ := none
  elev_band : Option ℚ := none
  selected_band : Bool := false
deriving DecidableEq, Repr

instance : Inhabited Row := ⟨{ x := 0, y := 0 }⟩

/-- Row of the table returned by `resample_satellite_to_glacier`: the code
keeps only the geometry column of the glacier table and adds `classes`. -/
structure ResRow where
  x : ℚ
  y : ℚ
  classes : Option ℚ := none
deriving DecidableEq, Repr

instance : Inhabited ResRow := ⟨{ x := 0, y := 0 }⟩

/-- Helper: `getD` through `map` when the mapped function fixes the default. -/
theorem getD_map_fix {α β : Type} (f : α → β) (l : List α) (i : ℕ) (da : α)
    (db : β) (h : f da = db) : (l.map f).getD i db = f (l.getD i da) := by
  induction l generalizing i with
  | nil => simpa using h.symm
  | cons a l ih =>
    cases i with
    | zero => simp [List.getD]
    | succ n => simpa [List.getD] using ih n

/-! ## Classifier (`GeoData.classify_snow_cover`, GeoData.py lines 188-195) -/

/-- The per-value classification of
`np.where(pred_masked > -tol, 1, np.where(pred_masked <= -tol, 3, np.nan))`:
a NaN value fails both comparisons (pandas semantics) and falls through to
the NaN branch. -/
def classifyValue (tol : ℚ) (v : Option ℚ) : Option ℚ :=
  if (match v with | none => false | some xv => decide (xv > -tol)) then some 1
  else if (match v with | none => false | some xv => decide (xv ≤ -tol)) then some 3
  else none

/-- `GeoData.classify_snow_cover`: writes the `classes` column from the
`pred_masked` column of the geopandas frame. -/
def classify_snow_cover (tol : ℚ) (gdf : List Row) : List Row :=
  gdf.map (fun r => { r with classes := classifyValue tol r.pred_masked })

/-! ## Elevation banding (`classify_elevation_bands`, scripts/geodata.py
lines 408-433) -/

/-- `classify_elevation_bands`: the `elev_band` column is
`elev_masked.fillna(-1).floordiv(band_size) * band_size`, after which rows
whose `elev_masked` is NaN get their band reset to missing (`None`). -/
def classify_elevation_bands (gdf : List Row) (band_size : ℚ) : List Row :=
  gdf.map (fun r =>
    let filled : ℚ := r.elev_masked.getD (-1)
    let band : ℚ := (⌊filled / band_size⌋ : ℤ) * band_size
    { r with elev_band := if r.elev_masked.isSome then some band else none })

/-! ## Geometry helpers shared by the resampler and the cloud filler -/

/-- Squared Euclidean distance between two points; the nearest-neighbour
queries (`scipy.spatial.cKDTree.query`, `sklearn NearestNeighbors`) minimise
the Euclidean distance, and comparing squares is order-equivalent. -/
def sqDist (px py qx qy : ℚ) : ℚ := (px - qx) ^ 2 + (py - qy) ^ 2

/-- Tail of the first-occurrence arg-min scan (`np.argmin` / KD-tree query
tie convention: the earliest index attaining the minimum). -/
def argminGo {α : Type} (f : α → ℚ) : List α → ℕ → ℕ → ℚ → ℕ
  | [], _, bi, _ => bi
  | a :: l, i, bi, bv =>
    if f a < bv then argminGo f l (i + 1) i (f a)
    else argminGo f l (i + 1) bi bv

/-- Index of the first element of `l` minimising `f` (0 on the empty list). -/
def argminIdx {α : Type} (f : α → ℚ) : List α → ℕ
  | [] => 0
  | a :: l => argminGo f l 1 0 (f a)

/-! ## Cloud replacement (`replace_clouds_with_nearest_neighbor`,
scripts/geodata.py lines 323-366) -/

/-- `gdf[gdf[class_column] == cloud_class]`. -/
def cloudRows (gdf : List Row) (cloud_class : ℚ) : List Row :=
  gdf.filter (fun r => decide (r.classes = some cloud_class))

/-- `gdf[gdf[class_column] != cloud_class]` followed by
`[... .notna()]`: non-cloud rows with a non-missing class.  (In pandas,
`NaN != cloud_class` is true, so the NaN rows survive the first filter and
are removed by the `notna` filter.) -/
def nonCloudValid (gdf : List Row) (cloud_class : ℚ) : List Row :=
  (gdf.filter (fun r => decide (¬ r.classes = some cloud_class))).filter
    (fun r => r.classes.isSome)

/-- The per-row effect of `gdf.loc[cloud_pixels.index, class_column] =
nearest_classes`: a cloud row takes the class of its nearest valid non-cloud
neighbour, every other row is untouched. -/
def cloudFillRow (ncv : List Row) (cloud_class : ℚ) (r : Row) : Row :=
  if r.classes = some cloud_class then
    { r with classes :=
        (ncv.getD (argminIdx (fun q => sqDist r.x r.y q.x q.y) ncv)
          default).classes }
  else r

/-- `replace_clouds_with_nearest_neighbor`: if there are no cloud rows or no
valid non-cloud rows, return the frame unchanged; otherwise overwrite the
`classes` entry of every cloud row with the class of its nearest valid
non-cloud neighbour. -/
def replace_clouds_with_nearest_neighbor (gdf : List Row) (cloud_class : ℚ) :
    List Row :=
  if (cloudRows gdf cloud_class).isEmpty ||
      (nonCloudValid gdf cloud_class).isEmpty then gdf
  else gdf.map (cloudFillRow (nonCloudValid gdf cloud_class) cloud_class)

/-! ## Theorems for C2, C7, C8, C10 -/

/-- On a non-NaN value the nested `np.where` reduces to a two-way split:
the inner guard `xv ≤ -tol` is exactly the negation of the outer one. -/
theorem classifyValue_some (tol xv : ℚ) :
    classifyValue tol (some xv) = if xv > -tol then some 1 else some 3 := by
  by_cases h : xv > -tol
  · simp [classifyValue, h]
  · push_neg at h
    simp [classifyValue, not_lt.mpr h, h]

/-- A NaN value fails both comparisons and is classified NaN. -/
theorem classifyValue_none (tol : ℚ) : classifyValue tol none = none := by
  simp [classifyValue]

/-- C2: `classify_snow_cover` assigns class 1 (snow) iff the value is
strictly above `-tol`, class 3 (ice) iff the value is at most `-tol` (so the
boundary value `-tol` is classified as ice), and propagates missing values
as missing — a missing input never receives a numeric class. -/
theorem classify_snow_cover_correct (tol : ℚ) (gdf : List Row) (i : ℕ)
    (xv : ℚ) :
    ((gdf.getD i default).pred_masked = some xv →
      (((classify_snow_cover tol gdf).getD i default).classes = some 1 ↔
        xv > -tol) ∧
      (((classify_snow_cover tol gdf).getD i default).classes = some 3 ↔
        xv ≤ -tol)) ∧
    ((gdf.getD i default).pred_masked = none →
      ((classify_snow_cover tol gdf).getD i default).classes = none) ∧
    classifyValue tol (some (-tol)) = some 3 := by
  have hmap : ((classify_snow_cover tol gdf).getD i default).classes =
      classifyValue tol (gdf.getD i default).pred_masked := by
    unfold classify_snow_cover
    rw [getD_map_fix _ gdf i default default rfl]
  refine ⟨?_, ?_, ?_⟩
  · intro hv
    rw [hmap, hv, classifyValue_some]
    by_cases hc : xv > -tol
    · simp [hc, not_le.mpr hc]
    · push_neg at hc
      simp [if_neg (not_lt.mpr hc), hc, not_lt.mpr hc]
  · intro hv
    rw [hmap, hv, classifyValue_none]
  · rw [classifyValue_some]
    simp

/-- Concrete one-row table for the C2 witness: prediction exactly `-1/10`,
the boundary value for tolerance `1/10`. -/
def c2ex : List Row := [{ x := 0, y := 0, pred_masked := some (-(1/10)) }]

/-- Witness for C2 at a concrete input: tolerance 1/10, one row with
prediction `-1/10` (the boundary), classified as ice (class 3). -/
theorem classify_snow_cover_correct_witness :
    ((c2ex.getD 0 default).pred_masked = some (-(1/10)) →
      (((classify_snow_cover (1/10) c2ex).getD 0 default).classes = some 1 ↔
        -(1/10) > -(1/10 : ℚ)) ∧
      (((classify_snow_cover (1/10) c2ex).getD 0 default).classes = some 3 ↔
        -(1/10) ≤ -(1/10 : ℚ))) ∧
    ((c2ex.getD 0 default).pred_masked = none →
      ((classify_snow_cover (1/10) c2ex).getD 0 default).classes = none) ∧
    classifyValue (1/10) (some (-(1/10))) = some 3 :=
  classify_snow_cover_correct (1/10) c2ex 0 (-(1/10))

/-- C7: elevation banding gives every row with elevation `e` the band label
`floor(e / band_size) * band_size` (left-closed bands), and every row with a
missing elevation a missing band label — the transient `-1` placeholder of
`fillna(-1)` never survives into the output. -/
theorem classify_elevation_bands_correct (gdf : List Row) (s : ℚ)
    (hs : 0 < s) (i : ℕ) :
    (classify_elevation_bands gdf s).length = gdf.length ∧
    (∀ e : ℚ, (gdf.getD i default).elev_masked = some e →
      ((classify_elevation_bands gdf s).getD i default).elev_band =
        some ((⌊e / s⌋ : ℤ) * s)) ∧
    ((gdf.getD i default).elev_masked = none →
      ((classify_elevation_bands gdf s).getD i default).elev_band = none) := by
  have hmap : (classify_elevation_bands gdf s).getD i default =
      { (gdf.getD i default) with
        elev_band := if (gdf.getD i default).elev_masked.isSome then
          some ((⌊(gdf.getD i default).elev_masked.getD (-1) / s⌋ : ℤ) * s)
        else none } := by
    unfold classify_elevation_bands
    exact getD_map_fix _ gdf i default default rfl
  refine ⟨by simp [classify_elevation_bands], ?_, ?_⟩
  · intro e he
    rw [hmap, he]
    simp
  · intro he
    rw [hmap, he]
    simp

/-- Concrete table for the C7 witness: one row at elevation `123`, one row
at elevation `-7`, one row with missing elevation; band size `50`. -/
def c7ex : List Row :=
  [{ x := 0, y := 0, elev_masked := some 123 },
   { x := 1, y := 0, elev_masked := some (-7) },
   { x := 2, y := 0, elev_masked := none }]

/-- Witness for C7: at band size 50 the first row lands in band 100
(`floor(123/50)*50`), and the proof applies the claim theorem with the
hypothesis `0 < 50` discharged concretely. -/
theorem classify_elevation_bands_correct_witness :
    ((0 : ℚ) < 50) ∧
    ((classify_elevation_bands c7ex 50).length = c7ex.length ∧
      (∀ e : ℚ, (c7ex.getD 0 default).elev_masked = some e →
        ((classify_elevation_bands c7ex 50).getD 0 default).elev_band =
          some ((⌊e / (50 : ℚ)⌋ : ℤ) * (50 : ℚ))) ∧
      ((c7ex.getD 0 default).elev_masked = none →
        ((classify_elevation_bands c7ex 50).getD 0 default).elev_band =
          none)) :=
  ⟨by norm_num, classify_elevation_bands_correct c7ex 50 (by norm_num) 0⟩

/-- C8: if the table has no cloud rows, or no rows that are both non-cloud
and non-missing, `replace_clouds_with_nearest_neighbor` is the identity —
a no-op, not a failure. -/
theorem replace_clouds_noop (gdf : List Row) (cc : ℚ)
    (h : cloudRows gdf cc = [] ∨ nonCloudValid gdf cc = []) :
    replace_clouds_with_nearest_neighbor gdf cc = gdf := by
  unfold replace_clouds_with_nearest_neighbor
  rcases h with h | h <;> simp [h]

/-- Concrete table for the C8 witness: a single cloud row (class 5), hence
zero valid non-cloud rows. -/
def c8ex : List Row := [{ x := 0, y := 0, classes := some 5 }]

/-- Witness for C8: on `c8ex` the cloud replacement returns its input
unchanged; the disjunctive hypothesis is discharged by evaluation. -/
theorem replace_clouds_noop_witness :
    replace_clouds_with_nearest_neighbor c8ex 5 = c8ex :=
  replace_clouds_noop c8ex 5 (Or.inr (by decide))

/-- C10: the cloud replacement touches nothing but the `classes` entries of
cloud rows: the row count is preserved, every non-class column of every row
(geometry included) is unchanged, and every row whose class differs from
`cloud_class` keeps its class. -/
theorem replace_clouds_frame (gdf : List Row) (cc : ℚ) (i : ℕ) :
    (replace_clouds_with_nearest_neighbor gdf cc).length = gdf.length ∧
    ((replace_clouds_with_nearest_neighbor gdf cc).getD i default).x =
      (gdf.getD i default).x ∧
    ((replace_clouds_with_nearest_neighbor gdf cc).getD i default).y =
      (gdf.getD i default).y ∧
    ((replace_clouds_with_nearest_neighbor gdf cc).getD i default).pred_masked =
      (gdf.getD i default).pred_masked ∧
    ((replace_clouds_with_nearest_neighbor gdf cc).getD i default).elev_masked =
      (gdf.getD i default).elev_masked ∧
    ((replace_clouds_with_nearest_neighbor gdf cc).getD i default).dis_masked =
      (gdf.getD i default).dis_masked ∧
    ((replace_clouds_with_nearest_neighbor gdf cc).getD i default).elev_band =
      (gdf.getD i default).elev_band ∧
    ((replace_clouds_with_nearest_neighbor gdf cc).getD i default).selected_band =
      (gdf.getD i default).selected_band ∧
    ((gdf.getD i default).classes ≠ some cc →
      ((replace_clouds_with_nearest_neighbor gdf cc).getD i default).classes =
        (gdf.getD i default).classes) := by
  unfold replace_clouds_with_nearest_neighbor
  by_cases hc : ((cloudRows gdf cc).isEmpty ||
      (nonCloudValid gdf cc).isEmpty) = true
  · rw [if_pos hc]
    exact ⟨rfl, rfl, rfl, rfl, rfl, rfl, rfl, rfl, fun _ => rfl⟩
  · rw [if_neg hc]
    have hfix : cloudFillRow (nonCloudValid gdf cc) cc default = default := by
      simp [cloudFillRow]
    rw [getD_map_fix (cloudFillRow (nonCloudValid gdf cc) cc) gdf i default
      default hfix, List.length_map]
    set r := gdf.getD i default with hrdef
    by_cases hr : r.classes = some cc
    · refine ⟨rfl, ?_, ?_, ?_, ?_, ?_, ?_, ?_, ?_⟩ <;>
        simp [cloudFillRow, hr]
    · refine ⟨rfl, ?_, ?_, ?_, ?_, ?_, ?_, ?_, ?_⟩ <;>
        simp [cloudFillRow, hr]

/-- Concrete table for the C10 witness: one cloud row and one valid ice row,
so the replacement branch actually runs. -/
def c10ex : List Row :=
  [{ x := 0, y := 0, pred_masked := some 2, classes := some 5 },
   { x := 1, y := 0, classes := some 3 }]

/-- Witness for C10 at row 1 of `c10ex` (the non-cloud row): every column is
unchanged, including its class. -/
theorem replace_clouds_frame_witness :
    (replace_clouds_with_nearest_neighbor c10ex 5).length = c10ex.length ∧
    ((replace_clouds_with_nearest_neighbor c10ex 5).getD 1 default).x =
      (c10ex.getD 1 default).x ∧
    ((replace_clouds_with_nearest_neighbor c10ex 5).getD 1 default).y =
      (c10ex.getD 1 default).y ∧
    ((replace_clouds_with_nearest_neighbor c10ex 5).getD 1 default).pred_masked =
      (c10ex.getD 1 default).pred_masked ∧
    ((replace_clouds_with_nearest_neighbor c10ex 5).getD 1 default).elev_masked =
      (c10ex.getD 1 default).elev_masked ∧
    ((replace_clouds_with_nearest_neighbor c10ex 5).getD 1 default).dis_masked =
      (c10ex.getD 1 default).dis_masked ∧
    ((replace_clouds_with_nearest_neighbor c10ex 5).getD 1 default).elev_band =
      (c10ex.getD 1 default).elev_band ∧
    ((replace_clouds_with_nearest_neighbor c10ex 5).getD 1 default).selected_band =
      (c10ex.getD 1 default).selected_band ∧
    ((c10ex.getD 1 default).classes ≠ some 5 →
      ((replace_clouds_with_nearest_neighbor c10ex 5).getD 1 default).classes =
        (c10ex.getD 1 default).classes) :=
  replace_clouds_frame c10ex 5 1

/-! ## Smoothing filter (`GeoData.apply_gaussian_filter`, GeoData.py lines
145-186; byte-identical logic in `GaussianFilter`, scripts/geodata.py lines
148-189) -/

/-- The filter body: build the validity mask (non-NaN entries), replace NaN
by zero (`fillna(0)`), run the external scipy `gaussian_filter` — a total,
shape-preserving array routine, taken here as the parameter `blur` applied
to the sigma — and re-apply the mask (`.where(mask)`), so originally-NaN
cells read NaN again.  The array is the flattened variable. -/
def apply_gaussian_filter (blur : ℚ → List ℚ → List ℚ) (sigma : ℚ)
    (da : List (Option ℚ)) : List (Option ℚ) :=
  let filled := da.map (fun v => v.getD 0)
  let smoothed := blur sigma filled
  (da.zip smoothed).map (fun p => if p.1.isSome then some p.2 else none)

/-- Re-applying the mask pointwise preserves the missing/non-missing status
of every cell, for any smoothed array of the same length. -/
theorem maskRestore_isSome (da : List (Option ℚ)) (sm : List ℚ)
    (h : sm.length = da.length) (i : ℕ) :
    (((da.zip sm).map
        (fun p => if p.1.isSome then some p.2 else none)).getD i none).isSome =
      (da.getD i none).isSome := by
  induction da generalizing sm i with
  | nil =>
    simp
  | cons a da ih =>
    cases sm with
    | nil => simp at h
    | cons b sm =>
      cases i with
      | zero =>
        cases a <;> simp [List.getD]
      | succ n =>
        simp only [List.zip_cons_cons, List.map_cons, List.getD_cons_succ]
        exact ih sm (by simpa using h) n

/-- C1: for every sigma ≥ 0 and every shape-preserving convolution, the
Gaussian smoothing pass preserves the missing-value mask exactly — the
output has the length of the input, every originally-NaN position is NaN
after smoothing and every originally-valid position is valid after. -/
theorem apply_gaussian_filter_mask_invariant (blur : ℚ → List ℚ → List ℚ)
    (sigma : ℚ) (da : List (Option ℚ)) (hsigma : 0 ≤ sigma)
    (hlen : ∀ s l, (blur s l).length = l.length) :
    (apply_gaussian_filter blur sigma da).length = da.length ∧
    ∀ i : ℕ, ((apply_gaussian_filter blur sigma da).getD i none).isSome =
      (da.getD i none).isSome := by
  have hsm : (blur sigma (da.map (fun v => v.getD 0))).length = da.length := by
    rw [hlen, List.length_map]
  constructor
  · simp [apply_gaussian_filter, List.length_zip, hsm]
  · intro i
    exact maskRestore_isSome da _ hsm i

/-- Concrete array for the C1 witness. -/
def c1ex : List (Option ℚ) := [some 2, none, some 3, none]

/-- Witness for C1: the identity convolution (trivially shape-preserving)
at sigma 1 on a four-cell array with two NaN holes; both hypotheses are
discharged concretely. -/
theorem apply_gaussian_filter_mask_invariant_witness :
    (0 : ℚ) ≤ 1 ∧
    ((apply_gaussian_filter (fun _ l => l) 1 c1ex).length = c1ex.length ∧
      ∀ i : ℕ,
        ((apply_gaussian_filter (fun _ l => l) 1 c1ex).getD i none).isSome =
          (c1ex.getD i none).isSome) :=
  ⟨by norm_num,
   apply_gaussian_filter_mask_invariant (fun _ l => l) 1 c1ex (by norm_num)
     (fun _ _ => rfl)⟩

/-! ## Coverage fraction (`IceSnowCover`, scripts/geodata.py lines 312-320) -/

/-- `gdf_class[gdf_class_raster.classes != 5]`: the rows of the FIRST table
selected by the boolean mask computed on the SECOND table's class column
(pandas aligns the mask positionally for identically-indexed frames; a NaN
raster class passes the `!= 5` mask). -/
def icsValid (gdf_class gdf_class_raster : List Row) : List Row :=
  ((gdf_class.zip gdf_class_raster).filter
    (fun p => decide (¬ p.2.classes = some 5))).map Prod.fst

/-- `valid_classes.classes[valid_classes.classes == 1].count()`: pandas
`count` counts non-null entries, and `classes == 1` is false on NaN. -/
def icsNum (gdf_class gdf_class_raster : List Row) : ℕ :=
  ((icsValid gdf_class gdf_class_raster).filter
    (fun t => decide (t.classes = some 1))).length

/-- `valid_classes.classes.count()`: the non-null class entries among the
selected rows. -/
def icsDen (gdf_class gdf_class_raster : List Row) : ℕ :=
  ((icsValid gdf_class gdf_class_raster).filter
    (fun t => t.classes.isSome)).length

/-- `IceSnowCover`: the quotient of the two pandas counts.  The counts are
numpy int64, so a zero denominator yields NaN (0/0; the numerator is
structurally at most the denominator, hence 0 there), not an exception —
modelled as `none`. -/
def IceSnowCover (gdf_class gdf_class_raster : List Row) : Option ℚ :=
  if icsDen gdf_class gdf_class_raster = 0 then none
  else some ((icsNum gdf_class gdf_class_raster : ℚ) /
    (icsDen gdf_class gdf_class_raster : ℚ))

/-- Modelled from the spec: `count(class == classValue)` over the
non-missing rows of the single input table. -/
def cfcNum (tbl : List Row) (classValue : ℚ) : ℕ :=
  ((tbl.filter (fun t => t.classes.isSome)).filter
    (fun t => decide (t.classes = some classValue))).length

/-- Modelled from the spec: `count(class != excludeClass)` over the
non-missing rows of the single input table. -/
def cfcDen (tbl : List Row) (excludeClass : ℚ) : ℕ :=
  ((tbl.filter (fun t => t.classes.isSome)).filter
    (fun t => decide (¬ t.classes = some excludeClass))).length

/-- Modelled from the spec: the claim's formula
`count(class == classValue) / count(class != excludeClass)` restricted to
the non-missing rows of the single input table, with the NaN sentinel when
there are no valid rows.  Stated only for comparison against the code's
`IceSnowCover`. -/
def coverageFraction_claim (tbl : List Row) (classValue excludeClass : ℚ) :
    Option ℚ :=
  if cfcDen tbl excludeClass = 0 then none
  else some ((cfcNum tbl classValue : ℚ) / (cfcDen tbl excludeClass : ℚ))

/-- Tables for the C4 counterexample: the class table holds [snow, cloud],
the raster table holds [cloud, snow]; the code masks the class table by the
RASTER's classes, so only the cloud row survives. -/
def c4cls : List Row :=
  [{ x := 0, y := 0, classes := some 1 }, { x := 1, y := 0, classes := some 5 }]

/-- Companion raster table for the C4 counterexample. -/
def c4ras : List Row :=
  [{ x := 0, y := 0, classes := some 5 }, { x := 1, y := 0, classes := some 1 }]

/-- C4 counterexample: on `c4cls`/`c4ras` the code returns 0, while the
claimed formula evaluated on the input table returns 1 — the exclusion mask
is computed from the companion raster table, not from the input table. -/
theorem IceSnowCover_counterexample :
    IceSnowCover c4cls c4ras = some 0 ∧
    coverageFraction_claim c4cls 1 5 = some 1 ∧
    ¬ IceSnowCover c4cls c4ras = coverageFraction_claim c4cls 1 5 := by
  have hn : icsNum c4cls c4ras = 0 := by decide
  have hd : icsDen c4cls c4ras = 1 := by decide
  have hcn : cfcNum c4cls 1 = 1 := by decide
  have hcd : cfcDen c4cls 5 = 1 := by decide
  have h1 : IceSnowCover c4cls c4ras = some 0 := by
    unfold IceSnowCover
    rw [hn, hd]
    norm_num
  have h2 : coverageFraction_claim c4cls 1 5 = some 1 := by
    unfold coverageFraction_claim
    rw [hcn, hcd]
    norm_num
  exact ⟨h1, h2, by rw [h1, h2]; simp⟩

/-- Zipping a list with itself pairs every element with itself. -/
theorem zip_self_eq {α : Type} (l : List α) :
    l.zip l = l.map (fun a => (a, a)) := by
  induction l with
  | nil => rfl
  | cons a l ih => simp [ih]

/-- When the two tables coincide, the raster-mask selection reduces to
filtering the table by its own class column. -/
theorem icsValid_diag (c : List Row) :
    icsValid c c = c.filter (fun t => decide (¬ t.classes = some 5)) := by
  unfold icsValid
  rw [zip_self_eq, List.filter_map, List.map_map]
  have h1 : (Prod.fst ∘ fun a : Row => (a, a)) = (id : Row → Row) := rfl
  have h2 : ((fun p : Row × Row => decide (¬ p.2.classes = some 5)) ∘
      fun a => (a, a)) = (fun t : Row => decide (¬ t.classes = some 5)) := rfl
  rw [h1, h2, List.map_id]

/-- C4 amended: `IceSnowCover` masks by the companion raster table's class
column; when both arguments are the same table it computes exactly the
claimed formula `count(class == 1) / count(class != 5)` over the non-missing
rows, and whenever there are no valid rows it returns the NaN sentinel —
it is a total function (never raises) and never returns 0 in that case. -/
theorem IceSnowCover_amended (c r : List Row) :
    IceSnowCover c c = coverageFraction_claim c 1 5 ∧
    (icsDen c r = 0 → IceSnowCover c r = none) ∧
    (icsDen c r = 0 → ¬ IceSnowCover c r = some 0) := by
  have hnum : icsNum c c = cfcNum c 1 := by
    unfold icsNum cfcNum
    rw [icsValid_diag, List.filter_filter, List.filter_filter]
    congr 1
    apply List.filter_congr
    intro t _
    by_cases h : t.classes = some 1 <;> simp [h]
  have hden : icsDen c c = cfcDen c 5 := by
    unfold icsDen cfcDen
    rw [icsValid_diag, List.filter_filter, List.filter_filter]
    congr 1
    apply List.filter_congr
    intro t _
    by_cases h : t.classes = some 5 <;> cases ht : t.classes <;>
      simp_all
  refine ⟨?_, ?_, ?_⟩
  · unfold IceSnowCover coverageFraction_claim
    rw [hnum, hden]
  · intro h
    unfold IceSnowCover
    rw [if_pos h]
  · intro h
    unfold IceSnowCover
    rw [if_pos h]
    simp

/-- All-cloud raster companion for the C4 witness: masking `c4cls` by it
leaves no valid rows. -/
def c4ras0 : List Row :=
  [{ x := 0, y := 0, classes := some 5 }, { x := 1, y := 0, classes := some 5 }]

/-- Witness for C4's amended claim: with no valid rows the code returns the
NaN sentinel (and not 0), and on a shared table the claimed formula holds;
the zero-denominator hypothesis is discharged by evaluation. -/
theorem IceSnowCover_amended_witness :
    icsDen c4cls c4ras0 = 0 ∧ IceSnowCover c4cls c4ras0 = none ∧
    IceSnowCover c4cls c4cls = coverageFraction_claim c4cls 1 5 :=
  ⟨by decide, (IceSnowCover_amended c4cls c4ras0).2.1 (by decide),
    (IceSnowCover_amended c4cls c4cls).1⟩

/-! ## Resampler (`GeoData.resample_satellite_to_glacier`, GeoData.py lines
288-350) -/

/-- A bounding box `[minx, miny, maxx, maxy]` as returned by
`gdf.total_bounds`. -/
structure BBox where
  minx : ℚ
  miny : ℚ
  maxx : ℚ
  maxy : ℚ
deriving DecidableEq, Repr

/-- `gdf.total_bounds` of a point table: the componentwise min/max of the
point geometries.  (geopandas returns NaN bounds for an empty frame; the
empty case gets a junk value here and the theorems only speak about
nonempty tables.) -/
def total_bounds (g : List Row) : BBox :=
  match g with
  | [] => ⟨0, 0, 0, 0⟩
  | p :: ps =>
    ps.foldl (fun bb q =>
      ⟨min bb.minx q.x, min bb.miny q.y, max bb.maxx q.x, max bb.maxy q.y⟩)
      ⟨p.x, p.y, p.x, p.y⟩

/-- The containment check of `Problem 1` in the code: each side of the
glacier bounding box inside the raster bounding box. -/
def bounds_within (bb rb : BBox) : Bool :=
  decide (bb.minx ≥ rb.minx) && decide (bb.miny ≥ rb.miny) &&
  decide (bb.maxx ≤ rb.maxx) && decide (bb.maxy ≤ rb.maxy)

/-- `gpd.clip(gdf_raster, box(*bounding_box))`: the source points lying in
the closed bounding box (the shapely box polygon includes its boundary). -/
def clipBB (r : List Row) (bb : BBox) : List Row :=
  r.filter (fun p => decide (bb.minx ≤ p.x) && decide (p.x ≤ bb.maxx) &&
    decide (bb.miny ≤ p.y) && decide (p.y ≤ bb.maxy))

/-- The class assigned to one glacier point in the success branch: the class
of the nearest clipped source point (`cKDTree.query` over the clipped
coordinates), overridden to NaN by the final `np.where` whenever the glacier
point's own `pred_masked` is NaN. -/
def resampleRow (clipped : List Row) (p : Row) : ResRow :=
  { x := p.x, y := p.y,
    classes :=
      if p.pred_masked = none then none
      else (clipped.getD
        (argminIdx (fun q => sqDist p.x p.y q.x q.y) clipped)
        default).classes }

/-- `GeoData.resample_satellite_to_glacier`: returns the Python int `0` when
the glacier bounding box is not contained in the raster bounding box, the
Python int `1` when the raster clipped to the glacier bounding box is empty,
and otherwise the resampled table (the glacier frame reduced to its
geometry, plus the borrowed `classes` column).  The dynamically-typed
return value is modelled as a sum. -/
def resample_satellite_to_glacier (gdf_glacier gdf_raster : List Row) :
    Sum ℕ (List ResRow) :=
  if ¬ bounds_within (total_bounds gdf_glacier) (total_bounds gdf_raster) then
    Sum.inl 0
  else if (clipBB gdf_raster (total_bounds gdf_glacier)).isEmpty then
    Sum.inl 1
  else
    Sum.inr (gdf_glacier.map
      (resampleRow (clipBB gdf_raster (total_bounds gdf_glacier))))

/-- C3: the resampler returns the `0` sentinel exactly when the target
bounding box is not fully inside the source bounding box, the `1` sentinel
exactly when the containment holds but the source clipped to the target
bounding box is empty, and a resampled table otherwise; the two failure
sentinels are distinct from each other and from every successful result,
and — being return values of a total function — are not raised errors. -/
theorem resample_sentinels (g r : List Row) (hg : g ≠ []) (hr : r ≠ []) :
    (bounds_within (total_bounds g) (total_bounds r) = false →
      resample_satellite_to_glacier g r = Sum.inl 0) ∧
    (bounds_within (total_bounds g) (total_bounds r) = true →
      clipBB r (total_bounds g) = [] →
      resample_satellite_to_glacier g r = Sum.inl 1) ∧
    (bounds_within (total_bounds g) (total_bounds r) = true →
      clipBB r (total_bounds g) ≠ [] →
      ∃ t : List ResRow, resample_satellite_to_glacier g r = Sum.inr t) ∧
    ((Sum.inl 0 : Sum ℕ (List ResRow)) ≠ Sum.inl 1) ∧
    (∀ t : List ResRow, (Sum.inl 0 : Sum ℕ (List ResRow)) ≠ Sum.inr t) ∧
    (∀ t : List ResRow, (Sum.inl 1 : Sum ℕ (List ResRow)) ≠ Sum.inr t) := by
  refine ⟨?_, ?_, ?_, by simp, fun t => by simp, fun t => by simp⟩
  · intro h
    simp [resample_satellite_to_glacier, h]
  · intro h hc
    simp [resample_satellite_to_glacier, h, hc]
  · intro h hc
    refine ⟨g.map (resampleRow (clipBB r (total_bounds g))), ?_⟩
    simp [resample_satellite_to_glacier, h, hc]

/-- Glacier table of the spec's C3 example: bounding box [0,0,10,10]. -/
def c3g : List Row :=
  [{ x := 0, y := 0, pred_masked := some 1 },
   { x := 10, y := 10, pred_masked := some 2 }]

/-- Source table of the spec's C3 example: bounding box [5,5,15,15]. -/
def c3r : List Row :=
  [{ x := 5, y := 5, classes := some 1 },
   { x := 15, y := 15, classes := some 3 }]

/-- Witness for C3 at the spec's own example (target bbox [0,0,10,10],
source bbox [5,5,15,15]): containment fails, and applying the claim theorem
yields the coverage sentinel 0. -/
theorem resample_sentinels_witness :
    bounds_within (total_bounds c3g) (total_bounds c3r) = false ∧
    resample_satellite_to_glacier c3g c3r = Sum.inl 0 :=
  ⟨by decide, (resample_sentinels c3g c3r (by decide) (by decide)).1
    (by decide)⟩

/-- C6 amended: in a successful resample, every glacier row whose own
`pred_masked` is missing gets a missing class, and every other row receives
the class of its nearest neighbour among the CLIPPED source points (the
source points inside the glacier bounding box) — the KD-tree is built on
the clipped source, not on the full source table. -/
theorem resample_nearest_amended (g r : List Row)
    (hin : bounds_within (total_bounds g) (total_bounds r) = true)
    (hcl : clipBB r (total_bounds g) ≠ []) (i : ℕ) :
    resample_satellite_to_glacier g r =
      Sum.inr (g.map (resampleRow (clipBB r (total_bounds g)))) ∧
    (g.map (resampleRow (clipBB r (total_bounds g)))).length = g.length ∧
    ((g.getD i default).pred_masked = none →
      ((g.map (resampleRow (clipBB r (total_bounds g)))).getD i
        default).classes = none) ∧
    (∀ v : ℚ, (g.getD i default).pred_masked = some v →
      ((g.map (resampleRow (clipBB r (total_bounds g)))).getD i
        default).classes =
      ((clipBB r (total_bounds g)).getD
        (argminIdx
          (fun q => sqDist (g.getD i default).x (g.getD i default).y q.x q.y)
          (clipBB r (total_bounds g))) default).classes) := by
  have hmap : (g.map (resampleRow (clipBB r (total_bounds g)))).getD i
      default = resampleRow (clipBB r (total_bounds g)) (g.getD i default) :=
    getD_map_fix _ g i default default rfl
  refine ⟨?_, by simp, ?_, ?_⟩
  · simp [resample_satellite_to_glacier, hin, hcl]
  · intro hv
    rw [hmap]
    simp only [resampleRow]
    rw [hv]
    simp
  · intro v hv
    rw [hmap]
    simp only [resampleRow]
    rw [hv]
    simp

/-- The source point of the C6 counterexample that is the true nearest
source neighbour of the glacier point `(100,100)` but lies just OUTSIDE the
glacier bounding box, so clipping discards it. -/
def c6A : Row := { x := 50, y := 101, classes := some 1 }

/-- Glacier table for the C6 counterexample: bounding box [0,0,100,100],
both rows with non-missing predictions. -/
def c6g : List Row :=
  [{ x := 0, y := 0, pred_masked := some 1 },
   { x := 100, y := 100, pred_masked := some 1 }]

/-- Source table for the C6 counterexample: bounding box
[-1000,-1000,1000,1000] contains the glacier box; only `(50,0)` (class 3)
survives the clip to [0,0,100,100]. -/
def c6r : List Row :=
  [c6A,
   { x := 50, y := 0, classes := some 3 },
   { x := -1000, y := -1000, classes := some 1 },
   { x := 1000, y := 1000, classes := some 1 }]

/-- The table the code actually returns on the C6 counterexample input. -/
def c6res : List ResRow :=
  [{ x := 0, y := 0, classes := some 3 },
   { x := 100, y := 100, classes := some 3 }]

/-- C6 counterexample: the glacier row `(100,100)` has a non-missing value,
its strictly nearest SOURCE neighbour is `c6A` with class 1, yet the code
assigns it class 3 (the class of the nearest neighbour among the clipped
source points only) — so "receives the class of its nearest source
neighbour" is false as stated. -/
theorem resample_nearest_counterexample :
    c6A ∈ c6r ∧ c6A.classes = some 1 ∧
    (∀ q ∈ c6r, q ≠ c6A →
      sqDist 100 100 c6A.x c6A.y < sqDist 100 100 q.x q.y) ∧
    resample_satellite_to_glacier c6g c6r = Sum.inr c6res ∧
    (c6res.getD 1 default).classes = some 3 ∧
    ¬ (some (3 : ℚ) = some (1 : ℚ)) := by
  refine ⟨by decide, by decide, ?_, by decide, by decide, by decide⟩
  intro q hq hne
  fin_cases hq
  · exact absurd rfl hne
  · norm_num [sqDist, c6A]
  · norm_num [sqDist, c6A]
  · norm_num [sqDist, c6A]

/-! ## Snowline (`snowline`, scripts/geodata.py lines 369-405) -/

/-- The distinct elevation-band labels of the frame — the keys of
`gdf.groupby('elev_band')` (pandas drops NaN keys and iterates the groups in
ascending key order). -/
def bandLabels (gdf : List Row) : List ℚ :=
  List.insertionSort (fun a b => a ≤ b) (gdf.filterMap Row.elev_band).dedup

/-- Rows of band `b` whose class equals `cv` — the `value_counts` entry of
the pair `(b, cv)`. -/
def bandCvCount (gdf : List Row) (b cv : ℚ) : ℕ :=
  (gdf.filter (fun r => decide (r.elev_band = some b) &&
    decide (r.classes = some cv))).length

/-- Non-NaN class rows of band `b` — the `value_counts(normalize=True)`
denominator (`value_counts` drops NaN classes). -/
def bandValidCount (gdf : List Row) (b : ℚ) : ℕ :=
  (gdf.filter (fun r => decide (r.elev_band = some b) &&
    r.classes.isSome)).length

/-- The percentage of class `cv` within band `b` (the normalized count
times 100).  A band with no valid rows never appears in the pandas series;
rational division by zero yields the junk value 0, which is never relied
upon. -/
def bandPct (gdf : List Row) (b cv : ℚ) : ℚ :=
  100 * (bandCvCount gdf b cv : ℚ) / (bandValidCount gdf b : ℚ)

/-- The bands appearing in
`class_percentage = band_class_counts.xs(class_value, level=1)`: exactly the
bands with at least one row of the target class. -/
def cvBands (gdf : List Row) (cv : ℚ) : List ℚ :=
  (bandLabels gdf).filter (fun b => decide (0 < bandCvCount gdf b cv))

/-- The per-row `selected_band` assignment
`gdf['selected_band'] = gdf['elev_band'] == first_band` (all-false when no
band was found; a NaN band never equals the found band). -/
def markRow (fb : Option ℚ) (r : Row) : Row :=
  { r with selected_band := match fb with
      | some b => decide (r.elev_band = some b)
      | none => false }

/-- `snowline`: when the target class occurs in no band at all, the pandas
`.xs(class_value, level=1)` lookup raises `KeyError` — modelled as the
outer `none`.  Otherwise the series is scanned in ascending band order for
the first percentage ≥ threshold (python `None` if there is none), and the
boolean `selected_band` column is written, true exactly on the rows of the
found band. -/
def snowline (gdf : List Row) (class_value percentage_threshold : ℚ) :
    Option (List Row × Option ℚ) :=
  if (cvBands gdf class_value).isEmpty then none
  else
    let fb := (cvBands gdf class_value).find?
      (fun b => decide (bandPct gdf b class_value ≥ percentage_threshold))
    some (gdf.map (markRow fb), fb)

/-- The band-label list is strictly increasing: it sorts a duplicate-free
list by `≤`. -/
theorem bandLabels_sorted_lt (gdf : List Row) :
    List.Sorted (fun a b => a < b) (bandLabels gdf) := by
  have hs : List.Sorted (fun a b => a ≤ b) (bandLabels gdf) :=
    List.sorted_insertionSort _ _
  have hn : (bandLabels gdf).Nodup :=
    (List.perm_insertionSort _ _).nodup_iff.mpr (List.nodup_dedup _)
  exact (hs.and hn).imp (fun hab => lt_of_le_of_ne hab.1 hab.2)

/-- `find?` on a strictly sorted list returns an element iff it is the
least element satisfying the predicate. -/
theorem find_sorted_iff (p : ℚ → Bool) (b : ℚ) :
    ∀ (l : List ℚ), List.Sorted (fun a b => a < b) l →
    (l.find? p = some b ↔
      b ∈ l ∧ p b = true ∧ ∀ c ∈ l, c < b → p c = false) := by
  intro l hs
  induction l with
  | nil => simp
  | cons a l ih =>
    have hs' : List.Sorted (fun a b => a < b) l := hs.of_cons
    by_cases hpa : p a = true
    · rw [List.find?_cons_of_pos _ hpa]
      constructor
      · intro h
        have hab : a = b := by injection h
        subst hab
        refine ⟨List.mem_cons_self a l, hpa, ?_⟩
        intro c hc hlt
        rcases List.mem_cons.mp hc with hca | hcl
        · exact absurd hlt (by rw [hca]; exact lt_irrefl a)
        · exact absurd hlt
            (not_lt.mpr (le_of_lt (List.rel_of_sorted_cons hs c hcl)))
      · rintro ⟨hb, hpb, hmin⟩
        rcases List.mem_cons.mp hb with hba | hbl
        · rw [hba]
        · have hab : a < b := List.rel_of_sorted_cons hs b hbl
          have : p a = false := hmin a (List.mem_cons_self a l) hab
          rw [this] at hpa
          exact absurd hpa (by simp)
    · rw [List.find?_cons_of_neg _ hpa, ih hs']
      constructor
      · rintro ⟨hb, hpb, hmin⟩
        refine ⟨List.mem_cons_of_mem a hb, hpb, ?_⟩
        intro c hc hlt
        rcases List.mem_cons.mp hc with hca | hcl
        · rw [hca]
          exact Bool.eq_false_iff.mpr hpa
        · exact hmin c hcl hlt
      · rintro ⟨hb, hpb, hmin⟩
        rcases List.mem_cons.mp hb with hba | hbl
        · exact absurd (hba ▸ hpb) hpa
        · exact ⟨hbl, hpb, fun c hc hlt =>
            hmin c (List.mem_cons_of_mem a hc) hlt⟩

/-- For a positive threshold, a band whose percentage meets the threshold
necessarily holds at least one row of the target class. -/
theorem cvCount_pos_of_pct_ge (gdf : List Row) (b cv thr : ℚ) (hthr : 0 < thr)
    (h : bandPct gdf b cv ≥ thr) : 0 < bandCvCount gdf b cv := by
  by_contra hc
  push_neg at hc
  have h0 : bandCvCount gdf b cv = 0 := Nat.le_zero.mp hc
  rw [bandPct, h0] at h
  simp at h
  exact absurd (lt_of_lt_of_le hthr h) (lt_irrefl 0)

/-- Witness for C6's amended claim on `c6g`/`c6r`: the success branch runs
(both hypotheses are discharged by evaluation) and the returned table is
the mapped nearest-clipped-neighbour table. -/
theorem resample_nearest_amended_witness :
    bounds_within (total_bounds c6g) (total_bounds c6r) = true ∧
    clipBB c6r (total_bounds c6g) ≠ [] ∧
    resample_satellite_to_glacier c6g c6r =
      Sum.inr (c6g.map (resampleRow (clipBB c6r (total_bounds c6g)))) :=
  ⟨by decide, by decide,
    (resample_nearest_amended c6g c6r (by decide) (by decide) 0).1⟩

/-- C5 amended: provided the threshold is positive and the target class
occurs in at least one band (otherwise the pandas `.xs` lookup raises),
`snowline` succeeds and returns the LEAST band label whose percentage of
the target class meets or exceeds the threshold — the first band of the
ascending scan, so later higher bands are never chosen — together with the
input table whose new boolean `selected_band` column is true exactly on the
rows of that band; when no band qualifies, the returned band is `none` and
no row is flagged. -/
theorem snowline_amended (gdf : List Row) (cv thr : ℚ) (hthr : 0 < thr)
    (hq : cvBands gdf cv ≠ []) :
    ∃ out : List Row, ∃ fb : Option ℚ,
      snowline gdf cv thr = some (out, fb) ∧
      out.length = gdf.length ∧
      (∀ b : ℚ, fb = some b →
        b ∈ bandLabels gdf ∧ bandPct gdf b cv ≥ thr ∧
        (∀ c ∈ bandLabels gdf, c < b → ¬ bandPct gdf c cv ≥ thr) ∧
        (∀ i : ℕ, (out.getD i default).selected_band =
          decide ((gdf.getD i default).elev_band = some b))) ∧
      (fb = none →
        (∀ c ∈ bandLabels gdf, ¬ bandPct gdf c cv ≥ thr) ∧
        (∀ i : ℕ, (out.getD i default).selected_band = false)) := by
  have hsorted : List.Sorted (fun a b => a < b) (cvBands gdf cv) :=
    (bandLabels_sorted_lt gdf).filter _
  have hmemcv : ∀ c : ℚ, c ∈ bandLabels gdf → bandPct gdf c cv ≥ thr →
      c ∈ cvBands gdf cv := by
    intro c hc hpc
    exact List.mem_filter.mpr
      ⟨hc, decide_eq_true (cvCount_pos_of_pct_ge gdf c cv thr hthr hpc)⟩
  unfold snowline
  rw [if_neg (by simpa [List.isEmpty_iff] using hq)]
  refine ⟨_, _, rfl, by simp, ?_, ?_⟩
  · intro b hfb
    have hchar := (find_sorted_iff
      (fun b => decide (bandPct gdf b cv ≥ thr)) b (cvBands gdf cv)
      hsorted).mp hfb
    obtain ⟨hbmem, hpb, hmin⟩ := hchar
    refine ⟨(List.mem_filter.mp hbmem).1, of_decide_eq_true hpb, ?_, ?_⟩
    · intro c hc hlt hpc
      have hcmem : c ∈ cvBands gdf cv := hmemcv c hc hpc
      have := hmin c hcmem hlt
      rw [decide_eq_true hpc] at this
      exact absurd this (by simp)
    · intro i
      have hfix : markRow ((cvBands gdf cv).find?
          (fun b => decide (bandPct gdf b cv ≥ thr))) default = default := by
        rw [hfb]
        simp [markRow]
        rfl
      rw [getD_map_fix _ gdf i default default hfix, hfb]
      simp [markRow]
  · intro hfb
    have hnone := List.find?_eq_none.mp hfb
    constructor
    · intro c hc hpc
      have hcmem : c ∈ cvBands gdf cv := hmemcv c hc hpc
      exact absurd (decide_eq_true hpc) (hnone c hcmem)
    · intro i
      have hfix : markRow ((cvBands gdf cv).find?
          (fun b => decide (bandPct gdf b cv ≥ thr))) default = default := by
        rw [hfb]
        rfl
      rw [getD_map_fix _ gdf i default default hfix, hfb]
      rfl

/-- One-row table for the C5 counterexample: a single band 0 all ice, so no
band reaches a 20% snow threshold. -/
def c5ce : List Row :=
  [{ x := 0, y := 0, classes := some 3, elev_band := some 0 }]

/-- C5 counterexample: on `c5ce` no band qualifies (the only band has snow
percentage 0 < 20), so the claim demands a successful return with band
`none` — but the target class occurs in no band, the pandas
`.xs(class_value, level=1)` lookup raises `KeyError`, and `snowline` does
not return at all (outer `none` in the embedding). -/
theorem snowline_counterexample :
    snowline c5ce 1 20 = none ∧
    bandLabels c5ce = [0] ∧
    bandPct c5ce 0 1 = 0 ∧
    ¬ ((0 : ℚ) ≥ 20) := by
  have h1 : bandCvCount c5ce 0 1 = 0 := by decide
  have h2 : bandValidCount c5ce 0 = 1 := by decide
  refine ⟨by decide, by decide, ?_, by norm_num⟩
  rw [bandPct, h1, h2]
  norm_num

/-- Row builder for the C5 witness table. -/
def mkBandRow (b c : ℚ) : Row :=
  { x := 0, y := 0, classes := some c, elev_band := some b }

/-- The spec's C5 example table: band 0 with 10% snow (1 of 10), band 50
with 30% snow (3 of 10), band 100 with 60% snow (3 of 5). -/
def c5wex : List Row :=
  List.replicate 1 (mkBandRow 0 1) ++ List.replicate 9 (mkBandRow 0 3) ++
  List.replicate 3 (mkBandRow 50 1) ++ List.replicate 7 (mkBandRow 50 3) ++
  List.replicate 3 (mkBandRow 100 1) ++ List.replicate 2 (mkBandRow 100 3)

/-- Witness for C5's amended claim on the spec's own example (bands
0/50/100 with 10%/30%/60% snow, threshold 50): both hypotheses are
discharged by evaluation and the claim theorem applies. -/
theorem snowline_amended_witness :
    (0 : ℚ) < 50 ∧ cvBands c5wex 1 ≠ [] ∧
    (∃ out : List Row, ∃ fb : Option ℚ,
      snowline c5wex 1 50 = some (out, fb) ∧
      out.length = c5wex.length ∧
      (∀ b : ℚ, fb = some b →
        b ∈ bandLabels c5wex ∧ bandPct c5wex b 1 ≥ 50 ∧
        (∀ c ∈ bandLabels c5wex, c < b → ¬ bandPct c5wex c 1 ≥ 50) ∧
        (∀ i : ℕ, (out.getD i default).selected_band =
          decide ((c5wex.getD i default).elev_band = some b))) ∧
      (fb = none →
        (∀ c ∈ bandLabels c5wex, ¬ bandPct c5wex c 1 ≥ 50) ∧
        (∀ i : ℕ, (out.getD i default).selected_band = false))) :=
  ⟨by norm_num, by decide, snowline_amended c5wex 1 50 (by norm_num)
    (by decide)⟩

/-! ## Grid/point round trip (`GeoData.xr_to_gpd`, GeoData.py lines
108-143, and `toRaster`, scripts/geodata.py lines 20-60) -/

/-- `GeoData.xr_to_gpd`: meshgrid of the 1-D latitude/longitude axes
(`np.meshgrid(lon, lat)` gives shape `(len(lat), len(lon))`), row-major
flattening of the three masked variables, one point per grid cell (no mask
filtering — NaN cells become NaN-valued points), geometry `(lon[j],
lat[i])` for the cell `(i, j)`. -/
def xr_to_gpd (lat lon : List ℚ) (pred elev dis : List (List (Option ℚ))) :
    List Row :=
  (((List.range lat.length).map (fun i =>
    (List.range lon.length).map (fun j =>
      ({ x := lon.getD j 0, y := lat.getD i 0,
         pred_masked := (pred.getD i []).getD j none,
         elev_masked := (elev.getD i []).getD j none,
         dis_masked := (dis.getD i []).getD j none } : Row))))).flatten

/-- One raster write `data_array[lat_idx, lon_idx] = value`. -/
def writeCell (arr : List (List (Option ℚ))) (i j : ℕ) (v : Option ℚ) :
    List (List (Option ℚ)) :=
  arr.set i ((arr.getD i []).set j v)

/-- `toRaster`: allocate an all-NaN `len(lat) × len(lon)` array, then for
each table row write its `pred_masked` at the nearest-bin indices
`np.argmin(np.abs(axis - coordinate))`; a later row hitting the same cell
overwrites the earlier one.  The GeoTIFF write/read pair returns the same
band, so the filled array is the returned `raster_data`. -/
def toRaster (gdf : List Row) (lon lat : List ℚ) :
    List (List (Option ℚ)) :=
  gdf.foldl (fun arr r =>
    writeCell arr (argminIdx (fun q => |q - r.y|) lat)
      (argminIdx (fun q => |q - r.x|) lon) r.pred_masked)
    (List.replicate lat.length (List.replicate lon.length none))

/-- If no later candidate strictly improves on the best value, the arg-min
scan keeps the best index. -/
theorem argminGo_no_improve {α : Type} (f : α → ℚ) :
    ∀ (l : List α) (i bi : ℕ) (bv : ℚ), (∀ x ∈ l, ¬ f x < bv) →
    argminGo f l i bi bv = bi := by
  intro l
  induction l with
  | nil => intro i bi bv _; rfl
  | cons a l ih =>
    intro i bi bv h
    rw [argminGo, if_neg (h a (List.mem_cons_self a l))]
    exact ih (i + 1) bi bv (fun x hx => h x (List.mem_cons_of_mem a hx))

/-- If position `k` is the unique zero of a nonnegative scoring function
and the incoming best value is positive, the scan lands on `k` (shifted by
the running offset `i`). -/
theorem argminGo_unique_zero {α : Type} (f : α → ℚ) (d : α) :
    ∀ (l : List α) (k i bi : ℕ) (bv : ℚ), k < l.length →
    f (l.getD k d) = 0 → (∀ x ∈ l, 0 ≤ f x) →
    (∀ j, j < l.length → f (l.getD j d) = 0 → j = k) → 0 < bv →
    argminGo f l i bi bv = i + k := by
  intro l
  induction l with
  | nil =>
    intro k i bi bv hk
    simp at hk
  | cons a l ih =>
    intro k i bi bv hk h0 hnn huz hbv
    cases k with
    | zero =>
      have hfa : f a = 0 := h0
      have hrest : ∀ x ∈ l, ¬ f x < (0 : ℚ) :=
        fun x hx => not_lt.mpr (hnn x (List.mem_cons_of_mem a hx))
      rw [argminGo, if_pos (by rw [hfa]; exact hbv), hfa,
        argminGo_no_improve f l (i + 1) i 0 hrest]
      omega
    | succ n =>
      have hfa0 : f a ≠ 0 := by
        intro h
        exact absurd (huz 0 (Nat.succ_pos _) h) (Nat.succ_ne_zero n).symm
      have hfa : 0 < f a :=
        lt_of_le_of_ne (hnn a (List.mem_cons_self a l)) (Ne.symm hfa0)
      have hk' : n < l.length := by simpa using hk
      have h0' : f (l.getD n d) = 0 := by
        simpa [List.getD_cons_succ] using h0
      have hnn' : ∀ x ∈ l, 0 ≤ f x :=
        fun x hx => hnn x (List.mem_cons_of_mem a hx)
      have huz' : ∀ j, j < l.length → f (l.getD j d) = 0 → j = n := by
        intro j hj hfj
        have := huz (j + 1) (by simpa using hj)
          (by simpa [List.getD_cons_succ] using hfj)
        omega
      rw [argminGo]
      by_cases hc : f a < bv
      · rw [if_pos hc, ih n (i + 1) i (f a) hk' h0' hnn' huz' hfa]
        omega
      · rw [if_neg hc, ih n (i + 1) bi bv hk' h0' hnn' huz' hbv]
        omega

/-- The first-occurrence arg-min of a nonnegative score with a unique zero
at `k` is `k`. -/
theorem argminIdx_unique_zero {α : Type} (f : α → ℚ) (d : α) (l : List α)
    (k : ℕ) (hk : k < l.length) (h0 : f (l.getD k d) = 0)
    (hnn : ∀ x ∈ l, 0 ≤ f x)
    (huz : ∀ j, j < l.length → f (l.getD j d) = 0 → j = k) :
    argminIdx f l = k := by
  cases l with
  | nil => simp at hk
  | cons a l =>
    cases k with
    | zero =>
      have hfa : f a = 0 := h0
      have hrest : ∀ x ∈ l, ¬ f x < (0 : ℚ) :=
        fun x hx => not_lt.mpr (hnn x (List.mem_cons_of_mem a hx))
      rw [argminIdx, hfa, argminGo_no_improve f l 1 0 0 hrest]
    | succ n =>
      have hfa0 : f a ≠ 0 := by
        intro h
        exact absurd (huz 0 (Nat.succ_pos _) h) (Nat.succ_ne_zero n).symm
      have hfa : 0 < f a :=
        lt_of_le_of_ne (hnn a (List.mem_cons_self a l)) (Ne.symm hfa0)
      have huz' : ∀ j, j < l.length → f (l.getD j d) = 0 → j = n := by
        intro j hj hfj
        have := huz (j + 1) (by simpa using hj)
          (by simpa [List.getD_cons_succ] using hfj)
        omega
      rw [argminIdx, argminGo_unique_zero f d l n 1 0 (f a)
        (by simpa using hk) (by simpa [List.getD_cons_succ] using h0)
        (fun x hx => hnn x (List.mem_cons_of_mem a hx)) huz' hfa]
      omega

/-- On an axis with pairwise-distinct entries, the nearest bin of the entry
at position `k` is position `k` itself (its distance is 0, everywhere else
the distance is positive). -/
theorem argminIdx_abs_self (xs : List ℚ) (hnd : xs.Nodup) (k : ℕ)
    (hk : k < xs.length) :
    argminIdx (fun q => |q - xs.getD k 0|) xs = k := by
  apply argminIdx_unique_zero _ 0 xs k hk
  · simp
  · intro x _
    exact abs_nonneg _
  · intro j hj hfj
    have hvals : xs.getD j 0 = xs.getD k 0 := by
      have := abs_eq_zero.mp hfj
      linarith
    rw [List.getD_eq_getElem xs 0 hj, List.getD_eq_getElem xs 0 hk] at hvals
    exact hnd.getElem_inj_iff.mp hvals

/-- Setting positions through a left fold keeps the length. -/
theorem foldl_set_length {α : Type} (v : ℕ → α) :
    ∀ (m : ℕ) (l0 : List α),
    (List.foldl (fun l k => l.set k (v k)) l0 (List.range m)).length =
      l0.length := by
  intro m
  induction m with
  | zero => intro l0; rfl
  | succ m ih =>
    intro l0
    rw [List.range_succ, List.foldl_append]
    simp [ih]

/-- Out-of-range `getD` is the default. -/
theorem getD_eq_default_of_le {α : Type} (l : List α) (d : α) (j : ℕ)
    (h : l.length ≤ j) : l.getD j d = d := by
  induction l generalizing j with
  | nil => rfl
  | cons a l ih =>
    cases j with
    | zero => simp at h
    | succ n => simpa [List.getD_cons_succ] using ih n (by simpa using h)

/-- The cell at `j` after the write fold: positions below `m` (and in
range) hold the written values, every other position keeps its original
content. -/
theorem foldl_set_getD {α : Type} (v : ℕ → α) (d : α) :
    ∀ (m : ℕ) (l0 : List α) (j : ℕ),
    (List.foldl (fun l k => l.set k (v k)) l0 (List.range m)).getD j d =
      if j < m ∧ j < l0.length then v j else l0.getD j d := by
  intro m
  induction m with
  | zero =>
    intro l0 j
    simp
  | succ m ih =>
    intro l0 j
    rw [List.range_succ, List.foldl_append]
    simp only [List.foldl_cons, List.foldl_nil]
    by_cases hlen : j < l0.length
    · have hlenf : j <
          (List.foldl (fun l k => l.set k (v k)) l0 (List.range m)).length := by
        rw [foldl_set_length]
        exact hlen
      have hlens : j < ((List.foldl (fun l k => l.set k (v k)) l0
          (List.range m)).set m (v m)).length := by
        rw [List.length_set]
        exact hlenf
      rw [List.getD_eq_getElem _ d hlens, List.getElem_set]
      by_cases hjm : m = j
      · subst hjm
        rw [if_pos rfl, if_pos ⟨by omega, hlen⟩]
      · rw [if_neg hjm, ← List.getD_eq_getElem _ d hlenf, ih l0 j]
        by_cases hjm2 : j < m
        · rw [if_pos ⟨hjm2, hlen⟩, if_pos ⟨by omega, hlen⟩]
        · rw [if_neg (by omega), if_neg (by omega)]
    · have h1 : l0.length ≤ j := not_lt.mp hlen
      have hset : ((List.foldl (fun l k => l.set k (v k)) l0
          (List.range m)).set m (v m)).length ≤ j := by
        rw [List.length_set, foldl_set_length]
        exact h1
      rw [getD_eq_default_of_le _ d j hset, if_neg (fun h => hlen h.2),
        getD_eq_default_of_le _ d j h1]

/-- Folding the writes of every position of `t` over any start list of the
right length rebuilds `t`. -/
theorem foldl_set_range_eq {α : Type} (v : ℕ → α) (d : α) (l0 t : List α)
    (hlen : l0.length = t.length)
    (ht : ∀ j, j < t.length → t.getD j d = v j) :
    List.foldl (fun l k => l.set k (v k)) l0 (List.range t.length) = t := by
  apply List.ext_getElem
  · rw [foldl_set_length]
    exact hlen
  · intro n h1 h2
    have hl0 : n < l0.length := by rw [hlen]; exact h2
    have hpoint := foldl_set_getD v d t.length l0 n
    rw [if_pos ⟨h2, hl0⟩] at hpoint
    rw [← List.getD_eq_getElem _ d h1, hpoint, ← ht n h2,
      List.getD_eq_getElem _ d h2]

/-- Writing the current value back is a no-op. -/
theorem set_getD_self {α : Type} (l : List α) (i : ℕ) (d : α)
    (h : i < l.length) : l.set i (l.getD i d) = l := by
  apply List.ext_getElem (by simp)
  intro n h1 h2
  rw [List.getElem_set]
  by_cases hin : i = n
  · subst hin
    rw [if_pos rfl, List.getD_eq_getElem _ d h]
  · rw [if_neg hin]

/-- Reading back the position just written. -/
theorem getD_set_self {α : Type} (l : List α) (i : ℕ) (a : α) (d : α)
    (h : i < l.length) : (l.set i a).getD i d = a := by
  have hs : i < (l.set i a).length := by
    rw [List.length_set]
    exact h
  rw [List.getD_eq_getElem _ d hs, List.getElem_set, if_pos rfl]

/-- A left fold only depends on the step function's values at list
members. -/
theorem foldl_congr_mem {α β : Type} (l : List β) (f g : α → β → α)
    (h : ∀ a b, b ∈ l → f a b = g a b) :
    ∀ init, l.foldl f init = l.foldl g init := by
  induction l with
  | nil => intro _; rfl
  | cons x l ih =>
    intro init
    rw [List.foldl_cons, List.foldl_cons, h init x (List.mem_cons_self x l)]
    exact ih (fun a b hb => h a b (List.mem_cons_of_mem x hb)) _

/-- Writing the cells `(i, 0) … (i, m-1)` writes nothing outside row `i`:
the whole fold is a single row update. -/
theorem innerRowFold (i : ℕ) (prow : ℕ → Option ℚ) :
    ∀ (m : ℕ) (arr : List (List (Option ℚ))), i < arr.length →
    List.foldl (fun acc j => writeCell acc i j (prow j)) arr
      (List.range m) =
    arr.set i (List.foldl (fun l j => l.set j (prow j)) (arr.getD i [])
      (List.range m)) := by
  intro m
  induction m with
  | zero =>
    intro arr hi
    simp only [List.range_zero, List.foldl_nil]
    exact (set_getD_self arr i [] hi).symm
  | succ m ih =>
    intro arr hi
    rw [List.range_succ, List.foldl_append, List.foldl_append]
    simp only [List.foldl_cons, List.foldl_nil]
    rw [ih arr hi, writeCell, getD_set_self arr i _ [] hi, List.set_set]

/-- C9: converting a masked grid to a point table (`xr_to_gpd`) and
rasterising it back onto the same coordinate axes (`toRaster`) reproduces
the grid exactly — in particular the masked value at every masked cell —
whenever the two axes have pairwise-distinct entries (so the nearest-bin
lookup of a point that sits exactly on the axes is exact) and the grid has
the axes' shape. -/
theorem grid_points_roundtrip (lat lon : List ℚ)
    (pred elev dis : List (List (Option ℚ)))
    (hlat : lat.Nodup) (hlon : lon.Nodup)
    (hshape : pred.length = lat.length)
    (hrow : ∀ i, i < pred.length →
      (pred.getD i []).length = lon.length) :
    toRaster (xr_to_gpd lat lon pred elev dis) lon lat = pred := by
  unfold toRaster xr_to_gpd
  rw [List.foldl_flatten, List.foldl_map]
  have hfun : (fun (arr : List (List (Option ℚ))) (i : ℕ) =>
      List.foldl (fun a r => writeCell a
        (argminIdx (fun q => |q - r.y|) lat)
        (argminIdx (fun q => |q - r.x|) lon) r.pred_masked) arr
        ((List.range lon.length).map (fun j =>
          ({ x := lon.getD j 0, y := lat.getD i 0,
             pred_masked := (pred.getD i []).getD j none,
             elev_masked := (elev.getD i []).getD j none,
             dis_masked := (dis.getD i []).getD j none } : Row)))) =
      (fun arr i => List.foldl (fun a j => writeCell a
        (argminIdx (fun q => |q - lat.getD i 0|) lat)
        (argminIdx (fun q => |q - lon.getD j 0|) lon)
        ((pred.getD i []).getD j none)) arr (List.range lon.length)) := by
    funext arr i
    rw [List.foldl_map]
  rw [hfun]
  have houter : ∀ m, m ≤ lat.length →
      List.foldl (fun arr i => List.foldl (fun a j => writeCell a
        (argminIdx (fun q => |q - lat.getD i 0|) lat)
        (argminIdx (fun q => |q - lon.getD j 0|) lon)
        ((pred.getD i []).getD j none)) arr (List.range lon.length))
        (List.replicate lat.length (List.replicate lon.length none))
        (List.range m) =
      List.foldl (fun arr i => arr.set i (pred.getD i []))
        (List.replicate lat.length (List.replicate lon.length none))
        (List.range m) := by
    intro m
    induction m with
    | zero => intro _; rfl
    | succ m ih =>
      intro hm
      have hmlt : m < lat.length := by omega
      rw [List.range_succ, List.foldl_append, List.foldl_append, ih (by omega)]
      simp only [List.foldl_cons, List.foldl_nil]
      have hAlen : (List.foldl (fun arr i => arr.set i (pred.getD i []))
          (List.replicate lat.length (List.replicate lon.length none))
          (List.range m)).length = lat.length := by
        rw [foldl_set_length]
        simp
      have hArow : (List.foldl (fun arr i => arr.set i (pred.getD i []))
          (List.replicate lat.length (List.replicate lon.length none))
          (List.range m)).getD m [] = List.replicate lon.length none := by
        rw [foldl_set_getD, if_neg (by omega)]
        have hm2 : m < (List.replicate lat.length
            (List.replicate lon.length (none : Option ℚ))).length := by
          simpa using hmlt
        rw [List.getD_eq_getElem _ [] hm2, List.getElem_replicate]
      have hinner : List.foldl (fun a j => writeCell a
          (argminIdx (fun q => |q - lat.getD m 0|) lat)
          (argminIdx (fun q => |q - lon.getD j 0|) lon)
          ((pred.getD m []).getD j none))
          (List.foldl (fun arr i => arr.set i (pred.getD i []))
            (List.replicate lat.length (List.replicate lon.length none))
            (List.range m)) (List.range lon.length) =
          List.foldl (fun a j => writeCell a m j
            ((pred.getD m []).getD j none))
          (List.foldl (fun arr i => arr.set i (pred.getD i []))
            (List.replicate lat.length (List.replicate lon.length none))
            (List.range m)) (List.range lon.length) := by
        apply foldl_congr_mem
        intro a j hj
        rw [argminIdx_abs_self lat hlat m hmlt,
          argminIdx_abs_self lon hlon j (List.mem_range.mp hj)]
      rw [hinner, innerRowFold m _ lon.length _ (by rw [hAlen]; exact hmlt)]
      congr 1
      rw [hArow]
      have hrowlen : (pred.getD m []).length = lon.length :=
        hrow m (by omega)
      rw [← hrowlen]
      apply foldl_set_range_eq
      · rw [List.length_replicate, hrowlen]
      · intro j _
        rfl
  rw [houter lat.length (le_refl _), ← hshape]
  apply foldl_set_range_eq
  · rw [List.length_replicate]
  · intro j _
    rfl

/-- Latitude axis for the C9 witness. -/
def c9lat : List ℚ := [0, 1]

/-- Longitude axis for the C9 witness. -/
def c9lon : List ℚ := [0, 2]

/-- Masked 2×2 grid for the C9 witness (one NaN hole). -/
def c9pred : List (List (Option ℚ)) := [[some 1, none], [some 2, some 3]]

/-- All-NaN companion variable for the C9 witness. -/
def c9aux : List (List (Option ℚ)) := [[none, none], [none, none]]

/-- Witness for C9 on a concrete 2×2 grid with distinct axes and a NaN
hole: all four hypotheses are discharged by evaluation and the round trip
reproduces the grid. -/
theorem grid_points_roundtrip_witness :
    c9lat.Nodup ∧ c9lon.Nodup ∧ c9pred.length = c9lat.length ∧
    (∀ i, i < c9pred.length → (c9pred.getD i []).length = c9lon.length) ∧
    toRaster (xr_to_gpd c9lat c9lon c9pred c9aux c9aux) c9lon c9lat =
      c9pred :=
  ⟨by decide, by decide, by decide, by decide,
    grid_points_roundtrip c9lat c9lon c9pred c9aux c9aux (by decide)
      (by decide) (by decide) (by decide)⟩
